import Mathlib

/-!
Shallow embedding of the cache-aside coordinator of `go-cacheable`
(package `cacheable`): the `CacheManager` byte-level `Get`/`Delete`,
the option combinators, the typed façade `Get[T]`, the process-wide
defaults and the prometheus counter construction, together with proofs
about the claims of the specification.
-/

namespace Cacheable

/-- Go `[]byte`, as a list of byte values. -/
abbrev Bytes := List Nat

/-- Go `[]byte(s)` conversion: the UTF-8 bytes of the string. -/
def stringToBytes (s : String) : Bytes :=
  s.toUTF8.toList.map (fun b => b.toNat)

/-- Go `error` values that appear in the coordinator:
`store.NotFound`, `errors.New "unsupported data type"`,
`errors.New "result type error"`, and opaque errors (loader or store
faults) identified by their message. -/
inductive GoError where
  | notFound
  | unsupportedDataType
  | resultTypeError
  | errMsg (msg : String)
  deriving DecidableEq, Repr

/-- The dynamic (`interface{}`) value a store `Get` may hand back:
a raw byte slice, a text string, or anything else. -/
inductive StoreData where
  | bytes (b : Bytes)
  | str (s : String)
  | otherType
  deriving DecidableEq, Repr

/-- The `Options` struct of `options.go`: expiration (a `time.Duration`,
in nanoseconds) and a list of tags. -/
structure Options where
  Expiration : Int
  Tags : List String
  deriving DecidableEq, Repr

/-- The option constructors exposed by `options.go`: `WithTags`,
`WithDynamicTags` and `WithExpiration`.  `WithDynamicTags` carries the
tag-computation closure. -/
inductive Opt where
  | withTags (tags : List String)
  | withDynamicTags (fn : Unit → List String)
  | withExpiration (expiration : Int)

/-- Applying one option to an `Options` value, as the closures returned
by `WithTags`, `WithDynamicTags` and `WithExpiration` do. -/
def applyOpt (o : Options) (opt : Opt) : Options :=
  match opt with
  | .withTags tags => { o with Tags := o.Tags ++ tags }
  | .withDynamicTags fn => { o with Tags := o.Tags ++ fn () }
  | .withExpiration e => { o with Expiration := e }

/-- `applyOptions` of `options.go`: start from the zero `Options` and
apply each option in order. -/
def applyOptions (opts : List Opt) : Options :=
  opts.foldl applyOpt { Expiration := 0, Tags := [] }

/-- Instrumented option application: the second component counts how
many times a `WithDynamicTags` closure is invoked (the closure runs
exactly when its option is applied). -/
def applyOptCount (oc : Options × Nat) (opt : Opt) : Options × Nat :=
  match opt with
  | .withTags tags => ({ oc.1 with Tags := oc.1.Tags ++ tags }, oc.2)
  | .withDynamicTags fn => ({ oc.1 with Tags := oc.1.Tags ++ fn () }, oc.2 + 1)
  | .withExpiration e => ({ oc.1 with Expiration := e }, oc.2)

/-- Instrumented `applyOptions`. -/
def applyOptionsCount (opts : List Opt) : Options × Nat :=
  opts.foldl applyOptCount ({ Expiration := 0, Tags := [] }, 0)

/-- Whether an option is a `WithDynamicTags` option. -/
def isDynamicTag : Opt → Bool
  | .withDynamicTags _ => true
  | _ => false

/-- Number of `WithDynamicTags` options in a list. -/
def dynTagCount (opts : List Opt) : Nat :=
  (opts.filter isDynamicTag).length

/-- Composed cache key, as built identically in `CacheManager.Get` and
`CacheManager.Delete`: `defaultKeyPrefix + ":" + namespace + ":" + key`. -/
def composeKey (pfx ns key : String) : String :=
  pfx ++ ":" ++ ns ++ ":" ++ key

/-- The `store.StoreInterface` capabilities the coordinator consumes,
over an abstract store state `σ`.  `get` yields a dynamic payload or an
error; `set` and `del` yield the new store state or an error. -/
structure StoreInterface (σ : Type) where
  get : σ → String → Except GoError StoreData
  set : σ → String → Bytes → Options → Except GoError σ
  del : σ → String → Except GoError σ

/-- The dynamic (`interface{}`) value produced by the closure handed to
`singleflight.Group.Do`. -/
inductive GoValue where
  | bytes (b : Bytes)
  | str (s : String)
  | otherVal
  deriving DecidableEq, Repr

/-- Whether a dynamic value is a byte slice (the Go type assertion
`result.([]byte)` succeeds exactly on these). -/
def isBytes : GoValue → Bool
  | .bytes _ => true
  | _ => false

/-- `i.sg.Do(key, func() (interface{}, error) {...})` for a single
(sequential) caller: run the closure, which calls `fn` and wraps its
byte result as a dynamic value or forwards its error. -/
def sgDo (fn : Unit → Except GoError Bytes) : Except GoError GoValue :=
  match fn () with
  | .error e => .error e
  | .ok d => .ok (.bytes d)

/-- The `(value, err, cached)` triple returned by `CacheManager.Get`.
`value = none` models a `nil` byte slice. -/
structure GetResult where
  value : Option Bytes
  err : Option GoError
  cached : Bool
  deriving DecidableEq, Repr

/-- Observable side effects of one `CacheManager.Get` call:
how many times the loader `fn` ran, how many times dynamic-tag closures
ran, every `Set` issued (key, payload, resolved store options), and
whether the `result.([]byte)` type assertion failed. -/
structure GetTrace where
  loaderCalls : Nat
  tagFnCalls : Nat
  setCalls : List (String × Bytes × Options)
  typeAssertFailed : Bool
  deriving DecidableEq, Repr

/-- The store options `CacheManager.Get` resolves before `Set`:
the caller's expiration if positive, else the process default, plus
the accumulated tags. -/
def resolveSetOptions (opts : List Opt) (defExp : Int) : Options :=
  let options := applyOptions opts
  { Expiration := if options.Expiration > 0 then options.Expiration else defExp
    Tags := options.Tags }

/-- `CacheManager.Get`: compose the key, query the store; on a hit
normalize `[]byte`/`string` payloads (anything else is
"unsupported data type"); on a non-not-found store error return it;
on a miss run the loader through single flight, propagate its error,
otherwise resolve options and write through, propagating a write
error with a `nil` value.  Returns the result, the store state after
the call, and the trace. -/
def CacheManagerGet {σ : Type} (store : StoreInterface σ) (st : σ)
    (pfx : String) (defExp : Int)
    (ns key : String) (fn : Unit → Except GoError Bytes)
    (opts : List Opt) : GetResult × σ × GetTrace :=
  let key := composeKey pfx ns key
  match store.get st key with
  | .ok data =>
    match data with
    | .bytes b => (⟨some b, none, true⟩, st, ⟨0, 0, [], false⟩)
    | .str s => (⟨some (stringToBytes s), none, true⟩, st, ⟨0, 0, [], false⟩)
    | .otherType => (⟨none, some .unsupportedDataType, false⟩, st, ⟨0, 0, [], false⟩)
  | .error e =>
    if e ≠ .notFound then
      (⟨none, some e, false⟩, st, ⟨0, 0, [], false⟩)
    else
      match sgDo fn with
      | .error fnErr => (⟨none, some fnErr, false⟩, st, ⟨1, 0, [], false⟩)
      | .ok result =>
        match result with
        | .bytes data =>
          let oc := applyOptionsCount opts
          let options := oc.1
          let setOptions : Options :=
            { Expiration := if options.Expiration > 0 then options.Expiration else defExp
              Tags := options.Tags }
          match store.set st key data setOptions with
          | .error e => (⟨none, some e, false⟩, st, ⟨1, oc.2, [(key, data, setOptions)], false⟩)
          | .ok st2 => (⟨some data, none, false⟩, st2, ⟨1, oc.2, [(key, data, setOptions)], false⟩)
        | _ => (⟨none, some .resultTypeError, false⟩, st, ⟨1, 0, [], true⟩)

/-- `CacheManager.Delete`: compose the key the same way and delete it. -/
def CacheManagerDelete {σ : Type} (store : StoreInterface σ) (st : σ)
    (pfx : String) (ns key : String) : Except GoError σ :=
  let key := composeKey pfx ns key
  store.del st key

/-- The typed façade `Get[T]`: adapt the typed loader into a byte
loader by marshaling, call the byte-level `Get`, then unmarshal the
byte result.  `value = none` models the zero value of `T` returned on
the error paths. -/
def GetT {σ T : Type} (store : StoreInterface σ) (st : σ)
    (pfx : String) (defExp : Int)
    (ns key : String)
    (marshal : T → Except GoError Bytes) (unmarshal : Bytes → Except GoError T)
    (fn : Unit → Except GoError T) (opts : List Opt) :
    (Option T × Option GoError × Bool) × σ × GetTrace :=
  let byteFn : Unit → Except GoError Bytes := fun u =>
    match fn u with
    | .error e => .error e
    | .ok v => marshal v
  let res := CacheManagerGet store st pfx defExp ns key byteFn opts
  let r := res.1
  match r.err with
  | some e => ((none, some e, r.cached), res.2.1, res.2.2)
  | none =>
    match unmarshal (r.value.getD []) with
    | .error e => ((none, some e, r.cached), res.2.1, res.2.2)
    | .ok v => ((some v, none, r.cached), res.2.1, res.2.2)

/-- An in-memory key/value store (the go-cache backed store the tests
use), as an association list with newest entries first. -/
def mapStoreIface : StoreInterface (List (String × Bytes)) where
  get st k :=
    match st.lookup k with
    | some b => .ok (.bytes b)
    | none => .error .notFound
  set st k v _ := .ok ((k, v) :: st)
  del st k := .ok (st.filter (fun p => !(p.1 == k)))

/-- `prometheus.CounterOpts` as used in `metrics.go`. -/
structure CounterOpts where
  Namespace : String
  Name : String
  Help : String
  deriving DecidableEq, Repr

/-- `prometheus.CounterVec`: its construction-time opts and label names. -/
structure CounterVec where
  opts : CounterOpts
  labelNames : List String
  deriving DecidableEq, Repr

/-- `prometheus.NewCounterVec`. -/
def NewCounterVec (opts : CounterOpts) (labels : List String) : CounterVec :=
  ⟨opts, labels⟩

/-- The package-level mutable state: the three defaults and the two
counter vectors declared at package scope. -/
structure PkgState where
  defaultKeyPfx : String
  defaultExpiration : Int
  defaultMetricsPfx : String
  CacheRequestTotal : CounterVec
  CacheHitTotal : CounterVec
  deriving DecidableEq, Repr

/-- Package initialization: the defaults get their literal initial
values (`60 * time.Minute` in nanoseconds), and the two counter vectors
of `metrics.go` are constructed once, reading `defaultMetricsPrefix`
at that moment. -/
def initialPkgState : PkgState :=
  let keyPfx := "cacheable"
  let expiration : Int := 60 * 60 * 1000000000
  let metricsPfx := "cacheable"
  { defaultKeyPfx := keyPfx
    defaultExpiration := expiration
    defaultMetricsPfx := metricsPfx
    CacheRequestTotal :=
      NewCounterVec ⟨metricsPfx, "cache_requests_total", "cache_requests_total"⟩ ["namespace"]
    CacheHitTotal :=
      NewCounterVec ⟨metricsPfx, "cache_hit_total", "cache_hit_total"⟩ ["namespace"] }

/-- Go `SetDefaultKeyPrefix`: assigns the package variable. -/
def SetDefaultKeyPfx (s : PkgState) (p : String) : PkgState :=
  { s with defaultKeyPfx := p }

/-- Go `SetDefaultExpiration`: assigns the package variable. -/
def SetDefaultExpiration (s : PkgState) (e : Int) : PkgState :=
  { s with defaultExpiration := e }

/-- Go `SetDefaultMetricsPrefix`: assigns the package variable (the
counter vectors already constructed at package init are untouched). -/
def SetDefaultMetricsPfx (s : PkgState) (p : String) : PkgState :=
  { s with defaultMetricsPfx := p }

/-- `CacheManager.Get` as invoked in the running process: the prefix and
default expiration are read from the package state at call time. -/
def GetPkg {σ : Type} (store : StoreInterface σ) (s : PkgState) (st : σ)
    (ns key : String) (fn : Unit → Except GoError Bytes)
    (opts : List Opt) : GetResult × σ × GetTrace :=
  CacheManagerGet store st s.defaultKeyPfx s.defaultExpiration ns key fn opts

/-- A single-call store oracle over the unit state: its `Get` returns a
fixed response and its `Set` succeeds or fails with a fixed error.  Used
to instantiate the coordinator at concrete inputs. -/
def oracleStore (getR : Except GoError StoreData) (setR : Option GoError) :
    StoreInterface Unit where
  get _ _ := getR
  set _ _ _ _ :=
    match setR with
    | some e => .error e
    | none => .ok ()
  del st _ := .ok st

/-! ## Helper lemmas -/

theorem foldl_applyOptCount_fst (opts : List Opt) :
    ∀ (o : Options) (n : Nat), (opts.foldl applyOptCount (o, n)).1 = opts.foldl applyOpt o := by
  induction opts with
  | nil => intro o n; rfl
  | cons x xs ih =>
    intro o n
    cases x <;> simp only [List.foldl_cons, applyOptCount, applyOpt] <;> exact ih _ _

theorem foldl_applyOptCount_snd (opts : List Opt) :
    ∀ (o : Options) (n : Nat), (opts.foldl applyOptCount (o, n)).2 = n + dynTagCount opts := by
  induction opts with
  | nil => intro o n; simp [dynTagCount]
  | cons x xs ih =>
    intro o n
    cases x with
    | withTags tags =>
      simp only [List.foldl_cons, applyOptCount, dynTagCount, List.filter, isDynamicTag]
      rw [ih]
      simp [dynTagCount]
    | withDynamicTags fn =>
      simp only [List.foldl_cons, applyOptCount, dynTagCount, List.filter, isDynamicTag]
      rw [ih]
      simp [dynTagCount]
      omega
    | withExpiration e =>
      simp only [List.foldl_cons, applyOptCount, dynTagCount, List.filter, isDynamicTag]
      rw [ih]
      simp [dynTagCount]

theorem applyOptionsCount_fst (opts : List Opt) :
    (applyOptionsCount opts).1 = applyOptions opts :=
  foldl_applyOptCount_fst opts _ 0

theorem applyOptionsCount_snd (opts : List Opt) :
    (applyOptionsCount opts).2 = dynTagCount opts := by
  simpa using foldl_applyOptCount_snd opts _ 0

/-- On a hit, `Get` returns without touching loader, tags or store. -/
theorem get_hit_eq {σ : Type} (store : StoreInterface σ) (st : σ) (pfx : String)
    (defExp : Int) (ns key : String) (fn : Unit → Except GoError Bytes)
    (opts : List Opt) (data : StoreData)
    (hget : store.get st (composeKey pfx ns key) = .ok data) :
    CacheManagerGet store st pfx defExp ns key fn opts =
      ((match data with
        | .bytes b => ⟨some b, none, true⟩
        | .str s => ⟨some (stringToBytes s), none, true⟩
        | .otherType => ⟨none, some .unsupportedDataType, false⟩),
       st, ⟨0, 0, [], false⟩) := by
  simp only [CacheManagerGet, hget]
  cases data <;> rfl

/-- On a non-not-found store error, `Get` returns it untouched. -/
theorem get_fault_eq {σ : Type} (store : StoreInterface σ) (st : σ) (pfx : String)
    (defExp : Int) (ns key : String) (fn : Unit → Except GoError Bytes)
    (opts : List Opt) (e : GoError)
    (hget : store.get st (composeKey pfx ns key) = .error e)
    (hne : e ≠ .notFound) :
    CacheManagerGet store st pfx defExp ns key fn opts =
      (⟨none, some e, false⟩, st, ⟨0, 0, [], false⟩) := by
  simp only [CacheManagerGet, hget]
  simp [hne]

/-- On a miss with a failing loader, `Get` propagates the loader error. -/
theorem get_loader_err_eq {σ : Type} (store : StoreInterface σ) (st : σ) (pfx : String)
    (defExp : Int) (ns key : String) (fn : Unit → Except GoError Bytes)
    (opts : List Opt) (e : GoError)
    (hget : store.get st (composeKey pfx ns key) = .error .notFound)
    (hfn : fn () = .error e) :
    CacheManagerGet store st pfx defExp ns key fn opts =
      (⟨none, some e, false⟩, st, ⟨1, 0, [], false⟩) := by
  simp only [CacheManagerGet, sgDo, hget, hfn]
  simp

/-- On a miss with a succeeding loader and a succeeding write, `Get`
returns the fresh payload and the store state after the write. -/
theorem get_miss_set_ok_eq {σ : Type} (store : StoreInterface σ) (st st2 : σ) (pfx : String)
    (defExp : Int) (ns key : String) (fn : Unit → Except GoError Bytes)
    (opts : List Opt) (d : Bytes)
    (hget : store.get st (composeKey pfx ns key) = .error .notFound)
    (hfn : fn () = .ok d)
    (hset : store.set st (composeKey pfx ns key) d (resolveSetOptions opts defExp) = .ok st2) :
    CacheManagerGet store st pfx defExp ns key fn opts =
      (⟨some d, none, false⟩, st2,
       ⟨1, dynTagCount opts, [(composeKey pfx ns key, d, resolveSetOptions opts defExp)], false⟩) := by
  simp only [CacheManagerGet, sgDo, hget, hfn]
  simp only [ne_eq, reduceIte, reduceCtorEq, not_false_eq_true]
  have h1 : (applyOptionsCount opts).1 = applyOptions opts := applyOptionsCount_fst opts
  have h2 : (applyOptionsCount opts).2 = dynTagCount opts := applyOptionsCount_snd opts
  have hres : ({ Expiration :=
      if (applyOptionsCount opts).1.Expiration > 0 then (applyOptionsCount opts).1.Expiration
      else defExp, Tags := (applyOptionsCount opts).1.Tags } : Options)
      = resolveSetOptions opts defExp := by
    rw [h1]; rfl
  rw [hres, hset, h2]
  simp

/-- On a miss with a succeeding loader and a failing write, `Get`
returns the write error with a `nil` value and the untouched state. -/
theorem get_miss_set_err_eq {σ : Type} (store : StoreInterface σ) (st : σ) (pfx : String)
    (defExp : Int) (ns key : String) (fn : Unit → Except GoError Bytes)
    (opts : List Opt) (d : Bytes) (e : GoError)
    (hget : store.get st (composeKey pfx ns key) = .error .notFound)
    (hfn : fn () = .ok d)
    (hset : store.set st (composeKey pfx ns key) d (resolveSetOptions opts defExp) = .error e) :
    CacheManagerGet store st pfx defExp ns key fn opts =
      (⟨none, some e, false⟩, st,
       ⟨1, dynTagCount opts, [(composeKey pfx ns key, d, resolveSetOptions opts defExp)], false⟩) := by
  simp only [CacheManagerGet, sgDo, hget, hfn]
  simp only [ne_eq, reduceIte, reduceCtorEq, not_false_eq_true]
  have h1 : (applyOptionsCount opts).1 = applyOptions opts := applyOptionsCount_fst opts
  have h2 : (applyOptionsCount opts).2 = dynTagCount opts := applyOptionsCount_snd opts
  have hres : ({ Expiration :=
      if (applyOptionsCount opts).1.Expiration > 0 then (applyOptionsCount opts).1.Expiration
      else defExp, Tags := (applyOptionsCount opts).1.Tags } : Options)
      = resolveSetOptions opts defExp := by
    rw [h1]; rfl
  rw [hres, hset, h2]
  simp

/-- If a separator occurs in neither left part, splitting at it is
unambiguous: equal concatenations have equal parts. -/
theorem append_sep_split {α : Type} [DecidableEq α] (c : α) :
    ∀ (a1 a2 b1 b2 : List α), c ∉ a1 → c ∉ a2 →
      a1 ++ c :: b1 = a2 ++ c :: b2 → a1 = a2 ∧ b1 = b2 := by
  intro a1
  induction a1 with
  | nil =>
    intro a2 b1 b2 _ h2 h
    cases a2 with
    | nil => simpa using h
    | cons x xs =>
      simp only [List.nil_append, List.cons_append, List.cons.injEq] at h
      exact absurd (h.1 ▸ List.mem_cons_self x xs) (h.1 ▸ h2)
  | cons x xs ih =>
    intro a2 b1 b2 h1 h2 h
    cases a2 with
    | nil =>
      simp only [List.cons_append, List.nil_append, List.cons.injEq] at h
      exact absurd (h.1 ▸ List.mem_cons_self x xs)
        (by rw [h.1] at h1; exact fun hc => h1 (by simp))
    | cons y ys =>
      simp only [List.cons_append, List.cons.injEq] at h
      obtain ⟨rfl, h⟩ := h
      have := ih ys b1 b2 (fun hc => h1 (List.mem_cons_of_mem _ hc))
        (fun hc => h2 (List.mem_cons_of_mem _ hc)) h
      exact ⟨by rw [this.1], this.2⟩

/-! ## Claims -/

/-- C2 (counterexample): key composition is not injective — the pairs
("a:b", "c") and ("a", "b:c") are distinct yet compose to the same
string "cacheable:a:b:c" under the default prefix. -/
theorem composeKey_collision_cex :
    composeKey "cacheable" "a:b" "c" = composeKey "cacheable" "a" "b:c" ∧
    (("a:b", "c") : String × String) ≠ ("a", "b:c") := by
  constructor
  · decide
  · decide

/-- C2 (amended): key composition is a deterministic function of
(prefix, namespace, key) — concatenation with the fixed ":" separator —
and it is injective on pairs whose namespace contains no ":" character;
with a ":" inside the namespace, distinct pairs can collide. -/
theorem composeKey_deterministic_and_inj_on_colonfree :
    (∀ pfx ns key : String, composeKey pfx ns key = pfx ++ ":" ++ ns ++ ":" ++ key) ∧
    (∀ pfx ns1 k1 ns2 k2 : String, (':' : Char) ∉ ns1.data → (':' : Char) ∉ ns2.data →
      composeKey pfx ns1 k1 = composeKey pfx ns2 k2 → ns1 = ns2 ∧ k1 = k2) := by
  constructor
  · intro pfx ns key
    rfl
  · intro pfx ns1 k1 ns2 k2 h1 h2 h
    have hd := congrArg String.data h
    simp only [composeKey, String.data_append, List.append_assoc] at hd
    have hd' := List.append_cancel_left hd
    simp only [List.singleton_append] at hd'
    injection hd' with _ hd''
    have := append_sep_split ':' ns1.data ns2.data k1.data k2.data h1 h2 hd''
    exact ⟨String.ext this.1, String.ext this.2⟩

/-- C2 (witness): applying the amended theorem at prefix "cacheable",
namespaces "users", keys "42". -/
theorem composeKey_amended_witness :
    composeKey "cacheable" "users" "42" = "cacheable" ++ ":" ++ "users" ++ ":" ++ "42" ∧
    ("users" = "users" ∧ "42" = "42") :=
  ⟨composeKey_deterministic_and_inj_on_colonfree.1 "cacheable" "users" "42",
   composeKey_deterministic_and_inj_on_colonfree.2 "cacheable" "users" "42" "users" "42"
     (by decide) (by decide) rfl⟩

/-- C1 (counterexample): loader computes [1, 2], the store write fails;
`CacheManager.Get` returns a nil value — the freshly computed payload is
discarded, not returned alongside the write error as the claim states. -/
theorem get_writeFailure_discards_value_cex :
    (CacheManagerGet (oracleStore (.error .notFound) (some (.errMsg "set failed"))) ()
        "cacheable" 60 "users" "42" (fun _ => .ok [1, 2]) []).1.err
      = some (.errMsg "set failed") ∧
    (CacheManagerGet (oracleStore (.error .notFound) (some (.errMsg "set failed"))) ()
        "cacheable" 60 "users" "42" (fun _ => .ok [1, 2]) []).1.cached = false ∧
    (CacheManagerGet (oracleStore (.error .notFound) (some (.errMsg "set failed"))) ()
        "cacheable" 60 "users" "42" (fun _ => .ok [1, 2]) []).1.value ≠ some [1, 2] := by
  refine ⟨rfl, rfl, ?_⟩
  decide

/-- C1 (amended): when the loader succeeds but the subsequent store
write fails, `CacheManager.Get` returns the write error as the call's
error with a nil value (the computed payload is discarded) and
wasCached = false. -/
theorem get_writeFailure_returns_error_nil_value {σ : Type} (store : StoreInterface σ)
    (st : σ) (pfx : String) (defExp : Int) (ns key : String)
    (fn : Unit → Except GoError Bytes) (opts : List Opt) (d : Bytes) (e : GoError)
    (hget : store.get st (composeKey pfx ns key) = .error .notFound)
    (hfn : fn () = .ok d)
    (hset : store.set st (composeKey pfx ns key) d (resolveSetOptions opts defExp) = .error e) :
    (CacheManagerGet store st pfx defExp ns key fn opts).1 = ⟨none, some e, false⟩ := by
  rw [get_miss_set_err_eq store st pfx defExp ns key fn opts d e hget hfn hset]

/-- C1 (witness): the amended theorem at a concrete failing store. -/
theorem get_writeFailure_witness :
    (CacheManagerGet (oracleStore (.error .notFound) (some (.errMsg "boom"))) ()
        "p" 60 "n" "k" (fun _ => .ok [7]) []).1 = ⟨none, some (.errMsg "boom"), false⟩ :=
  get_writeFailure_returns_error_nil_value _ _ _ _ _ _ _ _ [7] _ rfl rfl rfl

/-- C5: on a cache hit, a byte-slice payload is returned as-is and a
string payload as its bytes, with no error and wasCached = true; any
other payload representation yields the "unsupported data type" error. -/
theorem get_hit_normalizes_payload {σ : Type} (store : StoreInterface σ) (st : σ)
    (pfx : String) (defExp : Int) (ns key : String)
    (fn : Unit → Except GoError Bytes) (opts : List Opt) (data : StoreData)
    (hget : store.get st (composeKey pfx ns key) = .ok data) :
    (CacheManagerGet store st pfx defExp ns key fn opts).1 =
      (match data with
       | .bytes b => ⟨some b, none, true⟩
       | .str s => ⟨some (stringToBytes s), none, true⟩
       | .otherType => ⟨none, some .unsupportedDataType, false⟩) := by
  rw [get_hit_eq store st pfx defExp ns key fn opts data hget]

/-- C5 (witness): a hit whose payload is the string "hi" comes back as
the UTF-8 bytes of "hi". -/
theorem get_hit_normalizes_witness :
    (CacheManagerGet (oracleStore (.ok (.str "hi")) none) () "p" 60 "n" "k"
        (fun _ => .ok []) []).1 = ⟨some (stringToBytes "hi"), none, true⟩ :=
  get_hit_normalizes_payload _ _ _ _ _ _ _ _ (.str "hi") rfl

/-- C6: a store `Get` error other than not-found is propagated at once
with wasCached = false; the loader never runs, no write happens, and
the store state is untouched. -/
theorem get_storeFault_propagates_no_loader_no_write {σ : Type} (store : StoreInterface σ)
    (st : σ) (pfx : String) (defExp : Int) (ns key : String)
    (fn : Unit → Except GoError Bytes) (opts : List Opt) (e : GoError)
    (hget : store.get st (composeKey pfx ns key) = .error e)
    (hne : e ≠ .notFound) :
    (CacheManagerGet store st pfx defExp ns key fn opts).1 = ⟨none, some e, false⟩ ∧
    (CacheManagerGet store st pfx defExp ns key fn opts).2.2.loaderCalls = 0 ∧
    (CacheManagerGet store st pfx defExp ns key fn opts).2.2.setCalls = [] ∧
    (CacheManagerGet store st pfx defExp ns key fn opts).2.1 = st := by
  rw [get_fault_eq store st pfx defExp ns key fn opts e hget hne]
  exact ⟨rfl, rfl, rfl, rfl⟩

/-- C6 (witness): the theorem at a concrete faulting store. -/
theorem get_storeFault_witness :
    (CacheManagerGet (oracleStore (.error (.errMsg "redis down")) none) ()
        "p" 60 "n" "k" (fun _ => .ok [1]) []).1 = ⟨none, some (.errMsg "redis down"), false⟩ ∧
    (CacheManagerGet (oracleStore (.error (.errMsg "redis down")) none) ()
        "p" 60 "n" "k" (fun _ => .ok [1]) []).2.2.loaderCalls = 0 ∧
    (CacheManagerGet (oracleStore (.error (.errMsg "redis down")) none) ()
        "p" 60 "n" "k" (fun _ => .ok [1]) []).2.2.setCalls = [] ∧
    (CacheManagerGet (oracleStore (.error (.errMsg "redis down")) none) ()
        "p" 60 "n" "k" (fun _ => .ok [1]) []).2.1 = () :=
  get_storeFault_propagates_no_loader_no_write _ _ _ _ _ _ _ _ _ rfl (by decide)

/-- C7: on a miss, a loader error is propagated verbatim with
wasCached = false, no write is issued, and the store state is
unchanged (failures are not cached). -/
theorem get_loaderError_propagated_no_write {σ : Type} (store : StoreInterface σ)
    (st : σ) (pfx : String) (defExp : Int) (ns key : String)
    (fn : Unit → Except GoError Bytes) (opts : List Opt) (e : GoError)
    (hget : store.get st (composeKey pfx ns key) = .error .notFound)
    (hfn : fn () = .error e) :
    (CacheManagerGet store st pfx defExp ns key fn opts).1 = ⟨none, some e, false⟩ ∧
    (CacheManagerGet store st pfx defExp ns key fn opts).2.2.setCalls = [] ∧
    (CacheManagerGet store st pfx defExp ns key fn opts).2.1 = st := by
  rw [get_loader_err_eq store st pfx defExp ns key fn opts e hget hfn]
  exact ⟨rfl, rfl, rfl⟩

/-- C7 (witness): the theorem at a concrete failing loader. -/
theorem get_loaderError_witness :
    (CacheManagerGet (oracleStore (.error .notFound) none) ()
        "p" 60 "n" "k" (fun _ => .error (.errMsg "fn error")) []).1
      = ⟨none, some (.errMsg "fn error"), false⟩ ∧
    (CacheManagerGet (oracleStore (.error .notFound) none) ()
        "p" 60 "n" "k" (fun _ => .error (.errMsg "fn error")) []).2.2.setCalls = [] ∧
    (CacheManagerGet (oracleStore (.error .notFound) none) ()
        "p" 60 "n" "k" (fun _ => .error (.errMsg "fn error")) []).2.1 = () :=
  get_loaderError_propagated_no_write _ _ _ _ _ _ _ _ _ rfl rfl

/-- C4: a Get call carrying one dynamic-tag option evaluates its tag
closure exactly once when the store reports not-found and the loader
succeeds (a write is about to occur), and zero times on every other
path — cache hit, store fault, or loader failure.  In particular the
closure runs at most once per call. -/
theorem dynamicTag_evals_once_only_before_write {σ : Type} (store : StoreInterface σ)
    (st : σ) (pfx : String) (defExp : Int) (ns key : String)
    (fn : Unit → Except GoError Bytes) (opts : List Opt)
    (hone : dynTagCount opts = 1) :
    (CacheManagerGet store st pfx defExp ns key fn opts).2.2.tagFnCalls =
      (match store.get st (composeKey pfx ns key), fn () with
       | .error .notFound, .ok _ => 1
       | _, _ => 0) := by
  cases hget : store.get st (composeKey pfx ns key) with
  | ok data =>
    rw [get_hit_eq store st pfx defExp ns key fn opts data hget]
  | error e =>
    cases e with
    | notFound =>
      cases hfn : fn () with
      | error e2 =>
        rw [get_loader_err_eq store st pfx defExp ns key fn opts e2 hget hfn]
      | ok d =>
        cases hset : store.set st (composeKey pfx ns key) d (resolveSetOptions opts defExp) with
        | error e2 =>
          rw [get_miss_set_err_eq store st pfx defExp ns key fn opts d e2 hget hfn hset]
          exact hone
        | ok st2 =>
          rw [get_miss_set_ok_eq store st st2 pfx defExp ns key fn opts d hget hfn hset]
          exact hone
    | unsupportedDataType =>
      rw [get_fault_eq store st pfx defExp ns key fn opts _ hget (fun h => nomatch h)]
    | resultTypeError =>
      rw [get_fault_eq store st pfx defExp ns key fn opts _ hget (fun h => nomatch h)]
    | errMsg m =>
      rw [get_fault_eq store st pfx defExp ns key fn opts _ hget (fun h => nomatch h)]

/-- C4 (witness): one dynamic-tag option; its closure runs once on the
miss-then-write path. -/
theorem dynamicTag_witness :
    (CacheManagerGet (oracleStore (.error .notFound) none) () "p" 60 "n" "k"
        (fun _ => .ok [5]) [Opt.withDynamicTags (fun _ => ["t"])]).2.2.tagFnCalls = 1 :=
  dynamicTag_evals_once_only_before_write _ _ _ _ _ _ _ _ (by decide)

/-- C10: the closure handed to the coalescer only ever produces a
byte-slice value on success, so the `result.([]byte)` assertion after
`sg.Do` never fails and the "result type error" branch is unreachable
on every path of `CacheManager.Get`. -/
theorem resultTypeError_branch_unreachable {σ : Type} (store : StoreInterface σ)
    (st : σ) (pfx : String) (defExp : Int) (ns key : String)
    (fn : Unit → Except GoError Bytes) (opts : List Opt) :
    (∀ v : GoValue, sgDo fn = .ok v → isBytes v = true) ∧
    (CacheManagerGet store st pfx defExp ns key fn opts).2.2.typeAssertFailed = false := by
  constructor
  · intro v hv
    unfold sgDo at hv
    cases hfn : fn () with
    | error e => rw [hfn] at hv; cases hv
    | ok d =>
      rw [hfn] at hv
      cases hv
      rfl
  · cases hget : store.get st (composeKey pfx ns key) with
    | ok data =>
      rw [get_hit_eq store st pfx defExp ns key fn opts data hget]
    | error e =>
      by_cases hne : e = .notFound
      · subst hne
        cases hfn : fn () with
        | error e2 =>
          rw [get_loader_err_eq store st pfx defExp ns key fn opts e2 hget hfn]
        | ok d =>
          cases hset : store.set st (composeKey pfx ns key) d (resolveSetOptions opts defExp) with
          | error e2 =>
            rw [get_miss_set_err_eq store st pfx defExp ns key fn opts d e2 hget hfn hset]
          | ok st2 =>
            rw [get_miss_set_ok_eq store st st2 pfx defExp ns key fn opts d hget hfn hset]
      · rw [get_fault_eq store st pfx defExp ns key fn opts e hget hne]

/-- C10 (witness): the theorem at a concrete loader producing [5]. -/
theorem resultTypeError_unreachable_witness :
    isBytes (GoValue.bytes [5]) = true ∧
    (CacheManagerGet (oracleStore (.error .notFound) none) () "p" 60 "n" "k"
        (fun _ => .ok [5]) []).2.2.typeAssertFailed = false := by
  have h := resultTypeError_branch_unreachable (oracleStore (.error .notFound) none) ()
    "p" 60 "n" "k" (fun _ => .ok [5]) []
  exact ⟨h.1 (.bytes [5]) rfl, h.2⟩

/-- C8: `SetDefaultMetricsPrefix` (modelled by `SetDefaultMetricsPfx`)
updates the package variable, but the two counter vectors were built at
package init with the then-current value "cacheable", so metric labels
of subsequent calls do not change; by contrast the key prefix and the
default expiration set by their setters are read at call time and show
up in the very next call's composed key and resolved expiration. -/
theorem setDefaultMetricsPfx_has_no_effect_on_counters :
    (SetDefaultMetricsPfx initialPkgState "myapp").defaultMetricsPfx = "myapp" ∧
    (SetDefaultMetricsPfx initialPkgState "myapp").CacheRequestTotal.opts.Namespace
      = "cacheable" ∧
    (SetDefaultMetricsPfx initialPkgState "myapp").CacheHitTotal.opts.Namespace
      = "cacheable" ∧
    (SetDefaultMetricsPfx initialPkgState "myapp").CacheRequestTotal.opts.Namespace
      ≠ "myapp" ∧
    (GetPkg (oracleStore (.error .notFound) none)
        (SetDefaultKeyPfx (SetDefaultExpiration (SetDefaultMetricsPfx initialPkgState "myapp") 5) "p2")
        () "ns" "k" (fun _ => .ok [7]) []).2.2.setCalls
      = [("p2:ns:k", [7], ⟨5, []⟩)] := by
  refine ⟨rfl, rfl, rfl, by decide, ?_⟩
  decide

/-- C9: typed-façade round trip over the in-memory store: if the codec
round-trips on v (marshal v succeeds with mv and unmarshal mv gives
back v) and the composed key is absent, then the miss call returns
(v, no error, wasCached = false) and a subsequent call on the updated
store returns (v, no error, wasCached = true) — deserialize after
serialize is the identity on the stored payload. -/
theorem typedFacade_roundtrip {T : Type} (st : List (String × Bytes))
    (pfx : String) (defExp : Int) (ns key : String)
    (marshal : T → Except GoError Bytes) (unmarshal : Bytes → Except GoError T)
    (v : T) (mv : Bytes) (fn2 : Unit → Except GoError T) (opts opts2 : List Opt)
    (hm : marshal v = .ok mv)
    (hu : unmarshal mv = .ok v)
    (hmiss : st.lookup (composeKey pfx ns key) = none) :
    (GetT mapStoreIface st pfx defExp ns key marshal unmarshal (fun _ => .ok v) opts).1
      = (some v, none, false) ∧
    (GetT mapStoreIface
        (GetT mapStoreIface st pfx defExp ns key marshal unmarshal (fun _ => .ok v) opts).2.1
        pfx defExp ns key marshal unmarshal fn2 opts2).1
      = (some v, none, true) := by
  have hget1 : mapStoreIface.get st (composeKey pfx ns key) = .error .notFound := by
    simp [mapStoreIface, hmiss]
  have hfn : (fun u => match (fun _ => Except.ok v : Unit → Except GoError T) u with
      | .error e => .error e
      | .ok w => marshal w) () = Except.ok mv := by
    simpa using hm
  have hset : mapStoreIface.set st (composeKey pfx ns key) mv (resolveSetOptions opts defExp)
      = .ok ((composeKey pfx ns key, mv) :: st) := rfl
  have h1 := get_miss_set_ok_eq mapStoreIface st ((composeKey pfx ns key, mv) :: st)
    pfx defExp ns key
    (fun u => match (fun _ => Except.ok v : Unit → Except GoError T) u with
      | .error e => .error e
      | .ok w => marshal w) opts mv hget1 hfn hset
  have hget2 : mapStoreIface.get ((composeKey pfx ns key, mv) :: st) (composeKey pfx ns key)
      = .ok (.bytes mv) := by
    simp [mapStoreIface, List.lookup]
  constructor
  · simp only [GetT, h1, Option.getD_some, hu]
  · have h2 := get_hit_eq mapStoreIface ((composeKey pfx ns key, mv) :: st) pfx defExp ns key
      (fun u => match fn2 u with
        | .error e => .error e
        | .ok w => marshal w) opts2 (.bytes mv) hget2
    simp only [GetT, h1, Option.getD_some, hu, h2]

/-- C9 (witness): the round trip at T = Nat with a unit codec, v = 7,
and a second loader that would fail — the hit wins. -/
theorem typedFacade_roundtrip_witness :
    (GetT mapStoreIface [] "p" 60 "n" "k" (fun n : Nat => Except.ok [n])
        (fun b => match b with
          | [n] => Except.ok n
          | _ => Except.error (.errMsg "bad"))
        (fun _ => .ok 7) []).1 = (some 7, none, false) ∧
    (GetT mapStoreIface
        (GetT mapStoreIface [] "p" 60 "n" "k" (fun n : Nat => Except.ok [n])
            (fun b => match b with
              | [n] => Except.ok n
              | _ => Except.error (.errMsg "bad"))
            (fun _ => .ok 7) []).2.1
        "p" 60 "n" "k" (fun n : Nat => Except.ok [n])
        (fun b => match b with
          | [n] => Except.ok n
          | _ => Except.error (.errMsg "bad"))
        (fun _ => .error (.errMsg "other loader")) []).1 = (some 7, none, true) :=
  typedFacade_roundtrip [] "p" 60 "n" "k" (fun n : Nat => Except.ok [n])
    (fun b => match b with
      | [n] => Except.ok n
      | _ => Except.error (.errMsg "bad"))
    7 [7] (fun _ => .error (.errMsg "other loader")) [] [] rfl rfl rfl

end Cacheable
